import Mathlib

/-!
Verification of the gate-resolution and scoring engine of the Number Runner
game (src/app/index.tsx). Positions along the forward axis are modelled as
rationals, scores and operands as integers. The per-tick collision pass
(checkCollision) is a fold over the gate list in ascending order, mirroring
the gates.forEach loop; the score read inside that loop is the value captured
at the start of the tick (the React state variable playerValue is captured by
the useCallback closure and does not change while the loop runs), so the fold
carries the tick-start score as a fixed parameter.
-/

set_option maxRecDepth 4000

namespace NumberRunner

/-- Operation kinds of a gate option (source: OperationType, line 78). -/
inductive OperationType where
  | multiply
  | add
  | subtract
  deriving DecidableEq

/-- One side of a gate (source: GateOption, lines 80 to 85). -/
structure GateOption where
  type : OperationType
  value : ℤ
  color : String
  label : String
  deriving DecidableEq

/-- A gate: a pair of options at one forward checkpoint (source: GateData,
lines 95 to 100). -/
structure GateData where
  id : ℕ
  zPosition : ℚ
  leftOption : GateOption
  rightOption : GateOption
  deriving DecidableEq

/-- Engine-relevant part of GAME_CONFIG (source lines 102 to 111). -/
structure GameConfig where
  gateSpacing : ℚ
  totalGates : ℕ
  collisionThreshold : ℚ
  deriving DecidableEq

/-- The configuration constants of the source (GAME_CONFIG, lines 102 to 111),
restricted to the fields the engine logic reads. -/
def GAME_CONFIG : GameConfig :=
  { gateSpacing := 15, totalGates := 10, collisionThreshold := 2 }

/-- Computes the new score from a gate option (source: calculateNewValue,
lines 150 to 161). The default branch of the switch is unreachable because
OperationType has exactly the three listed constructors. -/
def calculateNewValue (currentValue : ℤ) (option : GateOption) : ℤ :=
  match option.type with
  | OperationType.multiply => currentValue * option.value
  | OperationType.add => currentValue + option.value
  | OperationType.subtract => max 0 (currentValue - option.value)

/-- The three operation kinds with their operand ranges (source: the
operations array, lines 119 to 123). -/
def operations : List (OperationType × ℤ × ℤ) :=
  [(OperationType.multiply, 2, 4), (OperationType.add, 10, 100),
   (OperationType.subtract, 5, 50)]

/-- Display symbol of an operation kind (source line 137). -/
def opSymbol : OperationType → String
  | OperationType.multiply => "×"
  | OperationType.add => "+"
  | OperationType.subtract => "−"

/-- Draws one random gate option (source: getRandomOption, lines 125 to 141).
The two calls to the random source are the arguments r1 and r2; each models
one value of the ambient random source, which lies in the half-open unit
interval. An index outside the operations array would make the source read an
undefined element and crash, which the Option models as none. The operand is
computed by the same expression in both branches of the source conditional,
so a single computation is used here. -/
def getRandomOption (r1 r2 : ℚ) : Option GateOption :=
  let idx := ⌊r1 * 3⌋
  if idx < 0 then none
  else
    match operations.get? idx.toNat with
    | none => none
    | some (ty, lo, hi) =>
      let value : ℤ := ⌊r2 * ((hi - lo + 1 : ℤ) : ℚ)⌋ + lo
      let color := if ty = OperationType.multiply ∨ ty = OperationType.add
        then "#00ff88" else "#ff3366"
      some { type := ty, value := value, color := color,
             label := opSymbol ty ++ toString value }

/-- Draws the pair of options of one gate (source: generateGateOptions,
lines 118 to 147); the four random-source values feed the left draw first. -/
def generateGateOptions (r1 r2 r3 r4 : ℚ) :
    Option (GateOption × GateOption) :=
  match getRandomOption r1 r2, getRandomOption r3 r4 with
  | some l, some r => some (l, r)
  | _, _ => none

/-- Generates the gate sequence (source: the gates useMemo loop, lines 537 to
549). The call to generateGateOptions inside the loop body draws from the
ambient random source; here the drawn pair for index i is supplied by the
parameter draw, abstracting that source. -/
def generateGates (cfg : GameConfig) (draw : ℕ → GateOption × GateOption) :
    List GateData :=
  (List.range cfg.totalGates).map fun i =>
    { id := i
      zPosition := ((i : ℚ) + 1) * cfg.gateSpacing
      leftOption := (draw i).1
      rightOption := (draw i).2 }

/-- Mutable engine state (source: the playerValue, playerZ, processedGates and
gameOver pieces of NumberRunner state, lines 528 to 552). The processed set is
kept as a duplicate-free list of gate ids; finished records that the gate with
the last ordinal has resolved (the source sets gameOver after a presentation
delay, which is elided). -/
structure EngineState where
  score : ℤ
  pos : ℚ
  processed : List ℕ
  finished : Bool
  deriving DecidableEq

/-- Scoring event emitted for one gate resolution (source: the ScorePopup
created in checkCollision, lines 578 to 594; the popup text is the signed
score difference, its color is the chosen option color, and its screen
position is a function of the lane, so the event carries gate id, difference,
color and lane). -/
structure ScoreEvent where
  gateId : ℕ
  delta : ℤ
  color : String
  lane : ℕ
  deriving DecidableEq

/-- Option picked by the current lane (source line 569: lane 0 selects the
left option, any other lane value selects the right option). -/
def chosenOption (lane : ℕ) (gate : GateData) : GateOption :=
  if lane = 0 then gate.leftOption else gate.rightOption

/-- One iteration of the collision loop body (source lines 562 to 604) for a
single gate. tickScore is the playerValue captured by the checkCollision
closure at the start of the tick: oldValue and newValue are both computed from
it, so several resolutions in one tick each start from the tick-start score
and the last state update wins. currentZ is the position tested against the
gate window. -/
def resolveStep (cfg : GameConfig) (tickScore : ℤ) (lane : ℕ) (currentZ : ℚ)
    (acc : EngineState × List ScoreEvent) (gate : GateData) :
    EngineState × List ScoreEvent :=
  if |currentZ - gate.zPosition| < cfg.collisionThreshold ∧
      gate.id ∉ acc.1.processed then
    ({ acc.1 with
        score := calculateNewValue tickScore (chosenOption lane gate)
        processed := acc.1.processed ++ [gate.id]
        finished := acc.1.finished ||
          decide ((gate.id : ℤ) = (cfg.totalGates : ℤ) - 1) },
     acc.2 ++ [{ gateId := gate.id
                 delta := calculateNewValue tickScore (chosenOption lane gate)
                   - tickScore
                 color := (chosenOption lane gate).color
                 lane := lane }])
  else acc

/-- Collision detection over all gates (source: checkCollision, lines 560 to
607): the forEach visits the gates in array order, so the pass is a left fold
starting from the state at the beginning of the tick with no events yet. -/
def checkCollision (cfg : GameConfig) (gates : List GateData) (lane : ℕ)
    (tickScore : ℤ) (currentZ : ℚ) (st : EngineState) :
    EngineState × List ScoreEvent :=
  gates.foldl (resolveStep cfg tickScore lane currentZ) (st, [])

/-- Position update callback (source: handlePositionUpdate, lines 610 to 616):
stores the new forward position and runs collision detection at it. -/
def handlePositionUpdate (cfg : GameConfig) (gates : List GateData)
    (lane : ℕ) (tickScore : ℤ) (z : ℚ) (st : EngineState) :
    EngineState × List ScoreEvent :=
  checkCollision cfg gates lane tickScore z { st with pos := z }

/-- One simulation tick: the player frame callback adds the forward delta to
the current position (source line 181) and reports it to
handlePositionUpdate; the lane read during the tick is the latest selected
lane. This is the advance operation of the engine. -/
def advance (cfg : GameConfig) (gates : List GateData) (st : EngineState)
    (forwardDelta : ℚ) (lane : ℕ) : EngineState × List ScoreEvent :=
  handlePositionUpdate cfg gates lane st.score (st.pos + forwardDelta) st

/-- Runs a sequence of ticks, concatenating the emitted events. -/
def runTicks (cfg : GameConfig) (gates : List GateData) :
    EngineState → List (ℚ × ℕ) → EngineState × List ScoreEvent
  | st, [] => (st, [])
  | st, t :: ts =>
    ((runTicks cfg gates (advance cfg gates st t.1 t.2).1 ts).1,
     (advance cfg gates st t.1 t.2).2 ++
       (runTicks cfg gates (advance cfg gates st t.1 t.2).1 ts).2)

/-- Initial engine state (source lines 528 to 531: playerValue starts at 10,
playerZ at 0, no gate processed, game not over). -/
def initialState : EngineState :=
  { score := 10, pos := 0, processed := [], finished := false }

/-- States reachable from the initial state by ticks with non-negative
forward deltas (the frame callback only ever adds a non-negative amount,
source line 181). -/
inductive Reachable (cfg : GameConfig) (gates : List GateData) :
    EngineState → Prop where
  | init : Reachable cfg gates initialState
  | step (st : EngineState) (forwardDelta : ℚ) (lane : ℕ)
      (hd : 0 ≤ forwardDelta) (h : Reachable cfg gates st) :
      Reachable cfg gates (advance cfg gates st forwardDelta lane).1

/-- Configuration of the single-gate test scenarios of the specification. -/
def cfgOne : GameConfig :=
  { gateSpacing := 15, totalGates := 1, collisionThreshold := 2 }

/-- Gate option Multiply 3, with the color and label the generator assigns. -/
def mulThree : GateOption :=
  { type := OperationType.multiply, value := 3, color := "#00ff88",
    label := "×3" }

/-- Gate option Add 50, with the color and label the generator assigns. -/
def addFifty : GateOption :=
  { type := OperationType.add, value := 50, color := "#00ff88",
    label := "+50" }

/-- Draw function producing Multiply 3 on the left and Add 50 on the right at
every gate. -/
def drawOne : ℕ → GateOption × GateOption := fun _ => (mulThree, addFifty)

/-- The gate list of the single-gate scenario. -/
def gatesOne : List GateData := generateGates cfgOne drawOne

/-- Operand ranges as configured in the operations array: each kind maps to
its inclusive range. -/
def optionInRange (o : GateOption) : Prop :=
  match o.type with
  | OperationType.multiply => 2 ≤ o.value ∧ o.value ≤ 4
  | OperationType.add => 10 ≤ o.value ∧ o.value ≤ 100
  | OperationType.subtract => 5 ≤ o.value ∧ o.value ≤ 50

/-- Last emitted delta of an event list, zero when no event was emitted. -/
def lastDelta (evs : List ScoreEvent) : ℤ :=
  ((evs.getLast?).map (fun e => e.delta)).getD 0

/-- A configuration whose collision threshold exceeds half the gate spacing,
so one tick can land inside the windows of two consecutive gates. -/
def cfgWide : GameConfig :=
  { gateSpacing := 4, totalGates := 2, collisionThreshold := 3 }

/-- Gate option Add 100, with the color and label the generator assigns. -/
def addHundred : GateOption :=
  { type := OperationType.add, value := 100, color := "#00ff88",
    label := "+100" }

/-- Gate option Multiply 2, with the color and label the generator assigns. -/
def mulTwo : GateOption :=
  { type := OperationType.multiply, value := 2, color := "#00ff88",
    label := "×2" }

/-- Draw function for the wide-threshold scenario: gate 0 offers Add 100 on
the left, gate 1 offers Multiply 2 on the left. -/
def drawWide : ℕ → GateOption × GateOption :=
  fun i => if i = 0 then (addHundred, addFifty) else (mulTwo, addFifty)

/-- The gate list of the wide-threshold scenario: gates at positions 4 and
8 with threshold 3. -/
def gatesWide : List GateData := generateGates cfgWide drawWide

/-- A state standing just past the single gate of cfgOne, nothing resolved. -/
def stNear : EngineState :=
  { score := 10, pos := 18, processed := [], finished := false }

/-- The forward position field is untouched by one collision-loop iteration:
only the position parameter of the tick is consulted. -/
theorem resolveStep_pos (cfg : GameConfig) (ts : ℤ) (lane : ℕ) (z : ℚ)
    (acc : EngineState × List ScoreEvent) (g : GateData) :
    (resolveStep cfg ts lane z acc g).1.pos = acc.1.pos := by
  unfold resolveStep
  split <;> rfl

/-- A gate already processed, or whose window does not contain the tick
position, leaves the accumulator unchanged. -/
theorem resolveStep_blocked (cfg : GameConfig) (ts : ℤ) (lane : ℕ) (z : ℚ)
    (acc : EngineState × List ScoreEvent) (g : GateData)
    (h : g.id ∈ acc.1.processed ∨ ¬ |z - g.zPosition| < cfg.collisionThreshold) :
    resolveStep cfg ts lane z acc g = acc := by
  unfold resolveStep
  rw [if_neg]
  tauto

/-- Processed ids are never removed by a collision-loop iteration. -/
theorem resolveStep_processed_mono (cfg : GameConfig) (ts : ℤ) (lane : ℕ)
    (z : ℚ) (acc : EngineState × List ScoreEvent) (g : GateData) (a : ℕ)
    (h : a ∈ acc.1.processed) :
    a ∈ (resolveStep cfg ts lane z acc g).1.processed := by
  unfold resolveStep
  split
  · exact List.mem_append_left _ h
  · exact h

/-- The finished flag is never cleared by a collision-loop iteration. -/
theorem resolveStep_finished_mono (cfg : GameConfig) (ts : ℤ) (lane : ℕ)
    (z : ℚ) (acc : EngineState × List ScoreEvent) (g : GateData)
    (h : acc.1.finished = true) :
    (resolveStep cfg ts lane z acc g).1.finished = true := by
  unfold resolveStep
  split
  · show (acc.1.finished || _) = true
    rw [h, Bool.true_or]
  · exact h

/-- Emitted events are never removed by a collision-loop iteration. -/
theorem resolveStep_events_mono (cfg : GameConfig) (ts : ℤ) (lane : ℕ)
    (z : ℚ) (acc : EngineState × List ScoreEvent) (g : GateData)
    (e : ScoreEvent) (h : e ∈ acc.2) :
    e ∈ (resolveStep cfg ts lane z acc g).2 := by
  unfold resolveStep
  split
  · exact List.mem_append_left _ h
  · exact h

/-- The collision pass never changes the stored forward position. -/
theorem foldl_pos (cfg : GameConfig) (ts : ℤ) (lane : ℕ) (z : ℚ)
    (gs : List GateData) :
    ∀ acc : EngineState × List ScoreEvent,
    (gs.foldl (resolveStep cfg ts lane z) acc).1.pos = acc.1.pos := by
  induction gs with
  | nil => intro acc; rfl
  | cons g gs ih =>
    intro acc
    rw [List.foldl_cons, ih, resolveStep_pos]

/-- Processed ids survive the whole collision pass. -/
theorem foldl_processed_mono (cfg : GameConfig) (ts : ℤ) (lane : ℕ) (z : ℚ)
    (gs : List GateData) :
    ∀ (acc : EngineState × List ScoreEvent) (a : ℕ), a ∈ acc.1.processed →
    a ∈ (gs.foldl (resolveStep cfg ts lane z) acc).1.processed := by
  induction gs with
  | nil => intro acc a h; exact h
  | cons g gs ih =>
    intro acc a h
    rw [List.foldl_cons]
    exact ih _ a (resolveStep_processed_mono cfg ts lane z acc g a h)

/-- The finished flag survives the whole collision pass. -/
theorem foldl_finished_mono (cfg : GameConfig) (ts : ℤ) (lane : ℕ) (z : ℚ)
    (gs : List GateData) :
    ∀ acc : EngineState × List ScoreEvent, acc.1.finished = true →
    (gs.foldl (resolveStep cfg ts lane z) acc).1.finished = true := by
  induction gs with
  | nil => intro acc h; exact h
  | cons g gs ih =>
    intro acc h
    rw [List.foldl_cons]
    exact ih _ (resolveStep_finished_mono cfg ts lane z acc g h)

/-- Events already emitted survive the whole collision pass. -/
theorem foldl_events_mono (cfg : GameConfig) (ts : ℤ) (lane : ℕ) (z : ℚ)
    (gs : List GateData) :
    ∀ (acc : EngineState × List ScoreEvent) (e : ScoreEvent), e ∈ acc.2 →
    e ∈ (gs.foldl (resolveStep cfg ts lane z) acc).2 := by
  induction gs with
  | nil => intro acc e h; exact h
  | cons g gs ih =>
    intro acc e h
    rw [List.foldl_cons]
    exact ih _ e (resolveStep_events_mono cfg ts lane z acc g e h)

/-- When every gate is already processed or out of window, the collision pass
is the identity. -/
theorem foldl_blocked (cfg : GameConfig) (ts : ℤ) (lane : ℕ) (z : ℚ)
    (gs : List GateData) :
    ∀ acc : EngineState × List ScoreEvent,
    (∀ g ∈ gs, g.id ∈ acc.1.processed ∨
      ¬ |z - g.zPosition| < cfg.collisionThreshold) →
    gs.foldl (resolveStep cfg ts lane z) acc = acc := by
  induction gs with
  | nil => intro acc _; rfl
  | cons g gs ih =>
    intro acc h
    rw [List.foldl_cons,
      resolveStep_blocked cfg ts lane z acc g (h g (List.mem_cons_self g gs))]
    exact ih acc (fun g hg => h g (List.mem_cons_of_mem _ hg))

/-- After a collision pass, every visited gate is processed or lies outside
the window of the tick position. -/
theorem foldl_post (cfg : GameConfig) (ts : ℤ) (lane : ℕ) (z : ℚ)
    (gs : List GateData) :
    ∀ acc : EngineState × List ScoreEvent, ∀ g ∈ gs,
    g.id ∈ (gs.foldl (resolveStep cfg ts lane z) acc).1.processed ∨
    ¬ |z - g.zPosition| < cfg.collisionThreshold := by
  induction gs with
  | nil => intro acc g hg; cases hg
  | cons g0 gs ih =>
    intro acc g hg
    rw [List.foldl_cons]
    rcases List.mem_cons.mp hg with rfl | hg
    · by_cases hw : |z - g.zPosition| < cfg.collisionThreshold
      · left
        by_cases hp : g.id ∈ acc.1.processed
        · exact foldl_processed_mono cfg ts lane z gs _ g.id
            (resolveStep_processed_mono cfg ts lane z acc g g.id hp)
        · apply foldl_processed_mono cfg ts lane z gs _ g.id
          unfold resolveStep
          rw [if_pos ⟨hw, hp⟩]
          exact List.mem_append_right _ (List.mem_singleton.mpr rfl)
      · exact Or.inr hw
    · exact ih _ g hg

/-- Events emitted by the collision pass never name an id that was already
processed when the pass started. -/
theorem foldl_events_fresh (cfg : GameConfig) (ts : ℤ) (lane : ℕ) (z : ℚ)
    (gs : List GateData) :
    ∀ (acc : EngineState × List ScoreEvent) (a : ℕ), a ∈ acc.1.processed →
    ∀ e ∈ (gs.foldl (resolveStep cfg ts lane z) acc).2,
    e ∈ acc.2 ∨ e.gateId ≠ a := by
  induction gs with
  | nil => intro acc a _ e he; exact Or.inl he
  | cons g gs ih =>
    intro acc a ha e he
    rw [List.foldl_cons] at he
    have ha2 := resolveStep_processed_mono cfg ts lane z acc g a ha
    rcases ih _ a ha2 e he with he2 | hne
    · unfold resolveStep at he2
      by_cases hc : |z - g.zPosition| < cfg.collisionThreshold ∧
          g.id ∉ acc.1.processed
      · rw [if_pos hc] at he2
        rcases List.mem_append.mp he2 with h1 | h2
        · exact Or.inl h1
        · right
          rw [List.mem_singleton.mp h2]
          intro hEq
          have hEq2 : g.id = a := hEq
          exact hc.2 (hEq2 ▸ ha)
      · rw [if_neg hc] at he2
        exact Or.inl he2
    · exact Or.inr hne

/-- An id newly processed during a collision pass belongs to a visited gate
whose window contains the tick position. -/
theorem foldl_new_processed (cfg : GameConfig) (ts : ℤ) (lane : ℕ) (z : ℚ)
    (gs : List GateData) :
    ∀ (acc : EngineState × List ScoreEvent) (a : ℕ), a ∉ acc.1.processed →
    a ∈ (gs.foldl (resolveStep cfg ts lane z) acc).1.processed →
    ∃ g ∈ gs, g.id = a ∧ |z - g.zPosition| < cfg.collisionThreshold := by
  induction gs with
  | nil => intro acc a ha hb; exact absurd hb ha
  | cons g gs ih =>
    intro acc a ha hb
    rw [List.foldl_cons] at hb
    by_cases hc : |z - g.zPosition| < cfg.collisionThreshold ∧
        g.id ∉ acc.1.processed
    · by_cases hag : g.id = a
      · exact ⟨g, List.mem_cons_self g gs, hag, hc.1⟩
      · have ha2 : a ∉ (resolveStep cfg ts lane z acc g).1.processed := by
          unfold resolveStep
          rw [if_pos hc]
          intro hmem
          rcases List.mem_append.mp hmem with h1 | h2
          · exact ha h1
          · exact hag (List.mem_singleton.mp h2).symm
        obtain ⟨g2, hg2, hid, hw⟩ := ih _ a ha2 hb
        exact ⟨g2, List.mem_cons_of_mem _ hg2, hid, hw⟩
    · rw [resolveStep_blocked cfg ts lane z acc g (by tauto)] at hb
      obtain ⟨g2, hg2, hid, hw⟩ := ih _ a ha hb
      exact ⟨g2, List.mem_cons_of_mem _ hg2, hid, hw⟩

/-- An id newly processed during a collision pass also has an emitted event. -/
theorem foldl_event_of_new (cfg : GameConfig) (ts : ℤ) (lane : ℕ) (z : ℚ)
    (gs : List GateData) :
    ∀ (acc : EngineState × List ScoreEvent) (a : ℕ), a ∉ acc.1.processed →
    a ∈ (gs.foldl (resolveStep cfg ts lane z) acc).1.processed →
    ∃ e ∈ (gs.foldl (resolveStep cfg ts lane z) acc).2, e.gateId = a := by
  induction gs with
  | nil => intro acc a ha hb; exact absurd hb ha
  | cons g gs ih =>
    intro acc a ha hb
    rw [List.foldl_cons] at hb ⊢
    by_cases hc : |z - g.zPosition| < cfg.collisionThreshold ∧
        g.id ∉ acc.1.processed
    · by_cases hag : g.id = a
      · refine ⟨({ gateId := g.id,
                   delta := calculateNewValue ts (chosenOption lane g) - ts,
                   color := (chosenOption lane g).color,
                   lane := lane } : ScoreEvent), ?_, hag⟩
        apply foldl_events_mono cfg ts lane z gs
        unfold resolveStep
        rw [if_pos hc]
        exact List.mem_append_right _ (List.mem_singleton.mpr rfl)
      · have ha2 : a ∉ (resolveStep cfg ts lane z acc g).1.processed := by
          unfold resolveStep
          rw [if_pos hc]
          intro hmem
          rcases List.mem_append.mp hmem with h1 | h2
          · exact ha h1
          · exact hag (List.mem_singleton.mp h2).symm
        exact ih _ a ha2 hb
    · rw [resolveStep_blocked cfg ts lane z acc g (by tauto)] at hb ⊢
      exact ih _ a ha hb

/-- Completeness of the collision pass: a visited gate whose window contains
the tick position ends up processed. -/
theorem foldl_resolves (cfg : GameConfig) (ts : ℤ) (lane : ℕ) (z : ℚ)
    (gs : List GateData) :
    ∀ acc : EngineState × List ScoreEvent, ∀ g ∈ gs,
    |z - g.zPosition| < cfg.collisionThreshold →
    g.id ∈ (gs.foldl (resolveStep cfg ts lane z) acc).1.processed := by
  induction gs with
  | nil => intro acc g hg; cases hg
  | cons g0 gs ih =>
    intro acc g hg hw
    rw [List.foldl_cons]
    rcases List.mem_cons.mp hg with rfl | hg
    · apply foldl_processed_mono cfg ts lane z gs
      by_cases hp : g.id ∈ acc.1.processed
      · exact resolveStep_processed_mono cfg ts lane z acc g g.id hp
      · unfold resolveStep
        rw [if_pos ⟨hw, hp⟩]
        exact List.mem_append_right _ (List.mem_singleton.mpr rfl)
    · exact ih _ g hg hw

/-- When the last ordinal enters the processed set during a pass, the
finished flag is set by that pass. -/
theorem foldl_finished_of (cfg : GameConfig) (ts : ℤ) (lane : ℕ) (z : ℚ)
    (gs : List GateData) :
    ∀ (acc : EngineState × List ScoreEvent) (a : ℕ),
    (a : ℤ) = (cfg.totalGates : ℤ) - 1 →
    a ∈ (gs.foldl (resolveStep cfg ts lane z) acc).1.processed →
    a ∈ acc.1.processed ∨
      (gs.foldl (resolveStep cfg ts lane z) acc).1.finished = true := by
  induction gs with
  | nil => intro acc a _ hb; exact Or.inl hb
  | cons g gs ih =>
    intro acc a hlast hb
    rw [List.foldl_cons] at hb ⊢
    by_cases hc : |z - g.zPosition| < cfg.collisionThreshold ∧
        g.id ∉ acc.1.processed
    · rcases ih _ a hlast hb with hmem | hfin
      · unfold resolveStep at hmem
        rw [if_pos hc] at hmem
        rcases List.mem_append.mp hmem with h1 | h2
        · exact Or.inl h1
        · right
          apply foldl_finished_mono cfg ts lane z gs
          unfold resolveStep
          rw [if_pos hc]
          show (acc.1.finished || _) = true
          have : ((g.id : ℤ) = (cfg.totalGates : ℤ) - 1) := by
            rw [List.mem_singleton.mp h2] at hlast
            exact hlast
          rw [decide_eq_true this, Bool.or_true]
      · exact Or.inr hfin
    · rw [resolveStep_blocked cfg ts lane z acc g (by tauto)] at hb ⊢
      exact ih _ a hlast hb

/-- Shape of the events emitted by a collision pass: each new event names a
visited gate, carries the difference between the chosen-option application to
the tick-start score and that score, the chosen-option color, and the lane. -/
theorem foldl_events_shape (cfg : GameConfig) (ts : ℤ) (lane : ℕ) (z : ℚ)
    (gs : List GateData) :
    ∀ acc : EngineState × List ScoreEvent,
    ∀ e ∈ (gs.foldl (resolveStep cfg ts lane z) acc).2,
    e ∈ acc.2 ∨ ∃ g ∈ gs, e.gateId = g.id ∧
      e.delta = calculateNewValue ts (chosenOption lane g) - ts ∧
      e.color = (chosenOption lane g).color ∧ e.lane = lane := by
  induction gs with
  | nil => intro acc e he; exact Or.inl he
  | cons g gs ih =>
    intro acc e he
    rw [List.foldl_cons] at he
    rcases ih _ e he with he2 | ⟨g2, hg2, rest⟩
    · unfold resolveStep at he2
      by_cases hc : |z - g.zPosition| < cfg.collisionThreshold ∧
          g.id ∉ acc.1.processed
      · rw [if_pos hc] at he2
        rcases List.mem_append.mp he2 with h1 | h2
        · exact Or.inl h1
        · right
          refine ⟨g, List.mem_cons_self g gs, ?_⟩
          rw [List.mem_singleton.mp h2]
          exact ⟨rfl, rfl, rfl, rfl⟩
      · rw [if_neg hc] at he2
        exact Or.inl he2
    · exact Or.inr ⟨g2, List.mem_cons_of_mem _ hg2, rest⟩

/-- The score after a collision pass is the tick-start score shifted by the
delta of the last emitted event: earlier resolutions of the same pass do not
compound, because every resolution recomputes from the tick-start score. -/
theorem foldl_score_last (cfg : GameConfig) (ts : ℤ) (lane : ℕ) (z : ℚ)
    (gs : List GateData) :
    ∀ acc : EngineState × List ScoreEvent,
    acc.1.score = ts + lastDelta acc.2 →
    (gs.foldl (resolveStep cfg ts lane z) acc).1.score =
      ts + lastDelta (gs.foldl (resolveStep cfg ts lane z) acc).2 := by
  induction gs with
  | nil => intro acc h; exact h
  | cons g gs ih =>
    intro acc h
    rw [List.foldl_cons]
    apply ih
    unfold resolveStep
    by_cases hc : |z - g.zPosition| < cfg.collisionThreshold ∧
        g.id ∉ acc.1.processed
    · rw [if_pos hc]
      show calculateNewValue ts (chosenOption lane g) =
        ts + lastDelta (acc.2 ++ [_])
      unfold lastDelta
      rw [List.getLast?_concat]
      show calculateNewValue ts (chosenOption lane g) =
        ts + (calculateNewValue ts (chosenOption lane g) - ts)
      ring
    · rw [if_neg hc]
      exact h

/-- The tick operation always stores the old position plus the delta. -/
theorem advance_pos (cfg : GameConfig) (gates : List GateData)
    (st : EngineState) (d : ℚ) (lane : ℕ) :
    (advance cfg gates st d lane).1.pos = st.pos + d := by
  unfold advance handlePositionUpdate checkCollision
  rw [foldl_pos]

/-- A state past the windows of all its unresolved gates is frozen by any
tick with non-negative delta: position moves, nothing else happens. -/
theorem advance_frozen (cfg : GameConfig) (gates : List GateData)
    (st : EngineState) (d : ℚ) (lane : ℕ)
    (h : ∀ g ∈ gates, g.id ∈ st.processed ∨
      g.zPosition + cfg.collisionThreshold ≤ st.pos)
    (hd : 0 ≤ d) :
    advance cfg gates st d lane = ({ st with pos := st.pos + d }, []) := by
  unfold advance handlePositionUpdate checkCollision
  apply foldl_blocked
  intro g hg
  rcases h g hg with hp | hfar
  · exact Or.inl hp
  · right
    intro habs
    have h1 := le_abs_self (st.pos + d - g.zPosition)
    have h2 := abs_lt.mp habs
    linarith

/-- Updating the position field with the position itself plus zero is the
identity on states. -/
theorem engineState_eta (s : EngineState) :
    ({ s with pos := s.pos + 0 } : EngineState) = s := by
  cases s
  simp

/-- A frozen state stays frozen over any sequence of non-negative ticks:
no events, no score change, no new resolution, flag unchanged. -/
theorem runTicks_frozen (cfg : GameConfig) (gates : List GateData) :
    ∀ (ticks : List (ℚ × ℕ)) (st : EngineState),
    (∀ g ∈ gates, g.id ∈ st.processed ∨
      g.zPosition + cfg.collisionThreshold ≤ st.pos) →
    (∀ p ∈ ticks, 0 ≤ p.1) →
    (runTicks cfg gates st ticks).2 = [] ∧
    (runTicks cfg gates st ticks).1.score = st.score ∧
    (runTicks cfg gates st ticks).1.processed = st.processed ∧
    (runTicks cfg gates st ticks).1.finished = st.finished := by
  intro ticks
  induction ticks with
  | nil => intro st _ _; exact ⟨rfl, rfl, rfl, rfl⟩
  | cons t ts ih =>
    intro st h hd
    have hd0 : 0 ≤ t.1 := hd t (List.mem_cons_self t ts)
    have hfrozen := advance_frozen cfg gates st t.1 t.2 h hd0
    have hnew : ∀ g ∈ gates,
        g.id ∈ ({ st with pos := st.pos + t.1 } : EngineState).processed ∨
        g.zPosition + cfg.collisionThreshold ≤
          ({ st with pos := st.pos + t.1 } : EngineState).pos := by
      intro g hg
      rcases h g hg with hp | hf
      · exact Or.inl hp
      · right
        show g.zPosition + cfg.collisionThreshold ≤ st.pos + t.1
        linarith
    obtain ⟨h1, h2, h3, h4⟩ :=
      ih _ hnew (fun p hp => hd p (List.mem_cons_of_mem t hp))
    simp only [runTicks, hfrozen]
    exact ⟨by simp [h1], h2, h3, h4⟩

/-- Every generated gate has an ordinal below totalGates and sits at
position (ordinal plus one) times the spacing. -/
theorem mem_generateGates (cfg : GameConfig)
    (draw : ℕ → GateOption × GateOption) (g : GateData)
    (h : g ∈ generateGates cfg draw) :
    g.id < cfg.totalGates ∧
    g.zPosition = ((g.id : ℚ) + 1) * cfg.gateSpacing := by
  unfold generateGates at h
  rcases List.mem_map.mp h with ⟨i, hi, rfl⟩
  exact ⟨List.mem_range.mp hi, rfl⟩

/-- Two collision passes with lanes that pick the same options from every
gate produce the same final state. -/
theorem foldl_state_lane (cfg : GameConfig) (ts : ℤ) (lane lane2 : ℕ)
    (z : ℚ) (hl : ∀ g : GateData, chosenOption lane g = chosenOption lane2 g)
    (gs : List GateData) :
    ∀ acc1 acc2 : EngineState × List ScoreEvent, acc1.1 = acc2.1 →
    (gs.foldl (resolveStep cfg ts lane z) acc1).1 =
      (gs.foldl (resolveStep cfg ts lane2 z) acc2).1 := by
  induction gs with
  | nil => intro a1 a2 h; exact h
  | cons g gs ih =>
    intro a1 a2 h
    rw [List.foldl_cons, List.foldl_cons]
    apply ih
    unfold resolveStep
    by_cases hc : |z - g.zPosition| < cfg.collisionThreshold ∧
        g.id ∉ a2.1.processed
    · have hc1 : |z - g.zPosition| < cfg.collisionThreshold ∧
          g.id ∉ a1.1.processed := by rw [h]; exact hc
      rw [if_pos hc1, if_pos hc]
      show ({ a1.1 with
        score := calculateNewValue ts (chosenOption lane g)
        processed := a1.1.processed ++ [g.id]
        finished := _ } : EngineState) = _
      rw [h, hl g]
    · have hc1 : ¬(|z - g.zPosition| < cfg.collisionThreshold ∧
          g.id ∉ a1.1.processed) := by rw [h]; exact hc
      rw [if_neg hc1, if_neg hc]
      exact h

/-- The floor of a unit-interval value scaled by a positive integer lies in
the integer interval from zero below that integer. -/
theorem floor_unit_mul (r : ℚ) (k : ℤ) (h0 : 0 ≤ r) (h1 : r < 1)
    (hk : 0 < k) : 0 ≤ ⌊r * (k : ℚ)⌋ ∧ ⌊r * (k : ℚ)⌋ < k := by
  constructor
  · apply Int.le_floor.mpr
    push_cast
    exact mul_nonneg h0 (by exact_mod_cast hk.le)
  · apply Int.floor_lt.mpr
    have hkq : (0 : ℚ) < (k : ℚ) := by exact_mod_cast hk
    calc r * (k : ℚ) < 1 * (k : ℚ) := mul_lt_mul_of_pos_right h1 hkq
    _ = (k : ℚ) := one_mul _

/-- Applying an option whose operand lies in its configured range to a
non-negative score keeps the score non-negative. -/
theorem calculateNewValue_nonneg (s : ℤ) (opt : GateOption) (hs : 0 ≤ s)
    (hr : optionInRange opt) : 0 ≤ calculateNewValue s opt := by
  rcases opt with ⟨ty, v, c, l⟩
  cases ty
  · show 0 ≤ s * v
    have h2 : (2 : ℤ) ≤ v := hr.1
    exact mul_nonneg hs (by linarith)
  · show 0 ≤ s + v
    have h2 : (10 : ℤ) ≤ v := hr.1
    linarith
  · exact le_max_left 0 (s - v)

/-- The collision pass preserves non-negativity of the score when the
tick-start score is non-negative and all operands are in range. -/
theorem foldl_score_nonneg (cfg : GameConfig) (ts : ℤ) (lane : ℕ) (z : ℚ)
    (hts : 0 ≤ ts) :
    ∀ (gs : List GateData) (acc : EngineState × List ScoreEvent),
    (∀ g ∈ gs, optionInRange g.leftOption ∧ optionInRange g.rightOption) →
    0 ≤ acc.1.score →
    0 ≤ (gs.foldl (resolveStep cfg ts lane z) acc).1.score := by
  intro gs
  induction gs with
  | nil => intro acc _ h; exact h
  | cons g gs ih =>
    intro acc hg h
    rw [List.foldl_cons]
    apply ih _ (fun g2 hg2 => hg g2 (List.mem_cons_of_mem _ hg2))
    unfold resolveStep
    split
    · show 0 ≤ calculateNewValue ts (chosenOption lane g)
      apply calculateNewValue_nonneg ts _ hts
      unfold chosenOption
      split
      · exact (hg g (List.mem_cons_self g gs)).1
      · exact (hg g (List.mem_cons_self g gs)).2
    · exact h

/-- In any reachable state where the last ordinal is processed, the finished
flag is set. -/
theorem reachable_finished (cfg : GameConfig) (gates : List GateData)
    (st : EngineState) (h : Reachable cfg gates st)
    (hn : 1 ≤ cfg.totalGates) :
    cfg.totalGates - 1 ∈ st.processed → st.finished = true := by
  induction h with
  | init =>
    intro hm
    exact absurd hm (List.not_mem_nil _)
  | step st d lane hd hr ih =>
    intro hm
    by_cases hin : cfg.totalGates - 1 ∈ st.processed
    · have hfin := ih hin
      unfold advance handlePositionUpdate checkCollision
      apply foldl_finished_mono
      exact hfin
    · have hcast : ((cfg.totalGates - 1 : ℕ) : ℤ) = (cfg.totalGates : ℤ) - 1 := by
        omega
      unfold advance handlePositionUpdate checkCollision at hm ⊢
      rcases foldl_finished_of cfg st.score lane (st.pos + d) gates _ _
        hcast hm with h1 | h2
      · exact absurd h1 hin
      · exact h2

/-- In any reachable state where the last ordinal is processed, every
unresolved generated gate lies a full window behind the position, so it can
never resolve again under non-negative deltas. -/
theorem reachable_far (cfg : GameConfig) (draw : ℕ → GateOption × GateOption)
    (hs : 0 < cfg.gateSpacing) (hn : 1 ≤ cfg.totalGates) (st : EngineState)
    (h : Reachable cfg (generateGates cfg draw) st) :
    cfg.totalGates - 1 ∈ st.processed →
    ∀ g ∈ generateGates cfg draw, g.id ∉ st.processed →
    g.zPosition + cfg.collisionThreshold ≤ st.pos := by
  induction h with
  | init =>
    intro hm
    exact absurd hm (List.not_mem_nil _)
  | step st d lane hd hr ih =>
    intro hm g hg hgp
    rw [advance_pos]
    by_cases hin : cfg.totalGates - 1 ∈ st.processed
    · have hgp0 : g.id ∉ st.processed := by
        intro hx
        apply hgp
        unfold advance handlePositionUpdate checkCollision
        exact foldl_processed_mono cfg st.score lane (st.pos + d)
          (generateGates cfg draw) _ g.id hx
      have := ih hin g hg hgp0
      linarith
    · unfold advance handlePositionUpdate checkCollision at hm hgp
      obtain ⟨glast, hglmem, hglid, hglw⟩ :=
        foldl_new_processed cfg st.score lane (st.pos + d)
          (generateGates cfg draw) _ _ hin hm
      have hglpos := (mem_generateGates cfg draw glast hglmem).2
      have hgmem := mem_generateGates cfg draw g hg
      have hpost := foldl_post cfg st.score lane (st.pos + d)
        (generateGates cfg draw) ({ st with pos := st.pos + d }, []) g hg
      have hwfail : ¬ |st.pos + d - g.zPosition| < cfg.collisionThreshold := by
        rcases hpost with h1 | h2
        · exact absurd h1 hgp
        · exact h2
      have hgidne : g.id ≠ cfg.totalGates - 1 := by
        intro hEq
        exact hgp (hEq ▸ hm)
      have hidlt : g.id + 1 ≤ cfg.totalGates - 1 := by
        have := hgmem.1
        omega
      have h1n : (1 : ℕ) ≤ cfg.totalGates := hn
      have hcastlast : ((cfg.totalGates - 1 : ℕ) : ℚ) =
          (cfg.totalGates : ℚ) - 1 := by
        push_cast [h1n]
        ring
      have hlastpos : glast.zPosition =
          (cfg.totalGates : ℚ) * cfg.gateSpacing := by
        rw [hglpos, hglid, hcastlast]
        ring
      have hcastg : ((g.id : ℚ) + 1) ≤ (cfg.totalGates : ℚ) - 1 := by
        have h2 : ((g.id + 1 : ℕ) : ℚ) ≤ ((cfg.totalGates - 1 : ℕ) : ℚ) :=
          Nat.cast_le.mpr hidlt
        rw [hcastlast] at h2
        push_cast at h2
        linarith
      have hgzle : g.zPosition ≤ ((cfg.totalGates : ℚ) - 1) * cfg.gateSpacing := by
        rw [hgmem.2]
        exact mul_le_mul_of_nonneg_right hcastg hs.le
      have hz1 := (abs_lt.mp hglw).1
      have hz2 := not_lt.mp hwfail
      rw [hlastpos] at hz1
      rcases le_abs.mp hz2 with hcase | hcase
      · linarith
      · exfalso
        have hexp : ((cfg.totalGates : ℚ) - 1) * cfg.gateSpacing =
            (cfg.totalGates : ℚ) * cfg.gateSpacing - cfg.gateSpacing := by
          ring
        rw [hexp] at hgzle
        linarith

/-- C1: applying a gate option to a score multiplies by, adds, or subtracts
the operand, with the Subtract result clamped at zero, so a Subtract
resolution never yields a negative score. -/
theorem calculateNewValue_spec (s v : ℤ) (c l : String) :
    calculateNewValue s
      { type := OperationType.multiply, value := v, color := c, label := l }
      = s * v ∧
    calculateNewValue s
      { type := OperationType.add, value := v, color := c, label := l }
      = s + v ∧
    calculateNewValue s
      { type := OperationType.subtract, value := v, color := c, label := l }
      = max 0 (s - v) ∧
    0 ≤ calculateNewValue s
      { type := OperationType.subtract, value := v, color := c, label := l } :=
  ⟨rfl, rfl, rfl, le_max_left 0 (s - v)⟩

/-- A delta-zero tick from a state in which every gate is processed or out of
window is a complete no-op. -/
theorem advance_noop (cfg : GameConfig) (gates : List GateData)
    (st1 : EngineState) (lane2 : ℕ)
    (hcond : ∀ g ∈ gates, g.id ∈ st1.processed ∨
      ¬ |st1.pos + 0 - g.zPosition| < cfg.collisionThreshold) :
    advance cfg gates st1 0 lane2 = (st1, []) := by
  unfold advance handlePositionUpdate checkCollision
  rw [foldl_blocked cfg st1.score lane2 (st1.pos + 0) gates
    ({ st1 with pos := st1.pos + 0 }, []) hcond]
  rw [engineState_eta]

/-- C2 counterexample: a tick with forwardDelta equal to minus two from a
state standing at position 18 before the single gate of cfgOne is not
rejected: the state changes (position moves back to 16, the gate at 15
resolves, the score changes) and an event is emitted, so the tick neither
fails nor leaves the state unchanged. -/
theorem negative_delta_not_rejected :
    (advance cfgOne gatesOne stNear (-2) 0).1 ≠ stNear ∧
    (advance cfgOne gatesOne stNear (-2) 0).2 =
      [{ gateId := 0, delta := 20, color := "#00ff88", lane := 0 }] := by
  have hval : advance cfgOne gatesOne stNear (-2) 0 =
      ({ score := 30, pos := 16, processed := [0], finished := true },
       [{ gateId := 0, delta := 20, color := "#00ff88", lane := 0 }]) := by
    norm_num [advance, handlePositionUpdate, checkCollision, resolveStep,
      gatesOne, generateGates, cfgOne, drawOne, List.range_succ, stNear,
      chosenOption, calculateNewValue, mulThree, addFifty]
  rw [hval]
  constructor
  · simp [stNear]
  · rfl

/-- C2 amended: the tick operation performs no input validation and cannot
fail: for every forwardDelta, negative included, the stored position becomes
the old position plus the delta and the collision pass runs at that new
position, and a lane outside the configured set (any lane other than 0)
behaves exactly like lane 1, selecting every gate right option. -/
theorem advance_no_validation (cfg : GameConfig) (gates : List GateData)
    (st : EngineState) (d : ℚ) (lane : ℕ) :
    (advance cfg gates st d lane).1.pos = st.pos + d ∧
    (lane ≠ 0 →
      (advance cfg gates st d lane).1 = (advance cfg gates st d 1).1) := by
  constructor
  · exact advance_pos cfg gates st d lane
  · intro hlane
    unfold advance handlePositionUpdate checkCollision
    apply foldl_state_lane
    · intro g
      unfold chosenOption
      rw [if_neg hlane, if_neg one_ne_zero]
    · rfl

/-- Witness for the amended C2 statement at a concrete input: a tick with
delta minus two and lane 2 ends in the same state as with lane 1. -/
theorem advance_no_validation_witness :
    (advance cfgOne gatesOne stNear (-2) 2).1 =
      (advance cfgOne gatesOne stNear (-2) 1).1 :=
  (advance_no_validation cfgOne gatesOne stNear (-2) 2).2 (by norm_num)

/-- C3: a gate already in the processed set never resolves again: no tick
emits an event carrying its id, and a second tick taken at the very position
of a first tick (delta zero) emits no event at all and leaves the state
unchanged. -/
theorem gate_resolved_at_most_once (cfg : GameConfig) (gates : List GateData)
    (st : EngineState) (d : ℚ) (lane lane2 a : ℕ) (h : a ∈ st.processed) :
    (∀ e ∈ (advance cfg gates st d lane).2, e.gateId ≠ a) ∧
    advance cfg gates (advance cfg gates st d lane).1 0 lane2 =
      ((advance cfg gates st d lane).1, []) := by
  constructor
  · intro e he
    unfold advance handlePositionUpdate checkCollision at he
    rcases foldl_events_fresh cfg st.score lane (st.pos + d) gates _ a h e he
      with h1 | h2
    · exact absurd h1 (List.not_mem_nil e)
    · exact h2
  · have hpos1 : (advance cfg gates st d lane).1.pos = st.pos + d :=
      advance_pos cfg gates st d lane
    have hpost : ∀ g ∈ gates,
        g.id ∈ (advance cfg gates st d lane).1.processed ∨
        ¬ |st.pos + d - g.zPosition| < cfg.collisionThreshold := by
      intro g hg
      exact foldl_post cfg st.score lane (st.pos + d) gates
        ({ st with pos := st.pos + d }, []) g hg
    have hcond : ∀ g ∈ gates,
        g.id ∈ (advance cfg gates st d lane).1.processed ∨
        ¬ |(advance cfg gates st d lane).1.pos + 0 - g.zPosition| <
          cfg.collisionThreshold := by
      intro g hg
      rcases hpost g hg with h1 | h2
      · exact Or.inl h1
      · right
        rw [add_zero, hpos1]
        exact h2
    exact advance_noop cfg gates (advance cfg gates st d lane).1 lane2 hcond

/-- Witness for C3 at a concrete input: from the post-resolution state of the
single-gate scenario, with gate 0 processed, a repeat tick names no event for
gate 0 and a delta-zero tick is a no-op. -/
theorem gate_resolved_at_most_once_witness :
    (∀ e ∈ (advance cfgOne gatesOne
      { score := 30, pos := 15, processed := [0], finished := true } 0 0).2,
      e.gateId ≠ 0) ∧
    advance cfgOne gatesOne
      (advance cfgOne gatesOne
        { score := 30, pos := 15, processed := [0], finished := true } 0 0).1
      0 0 =
    ((advance cfgOne gatesOne
      { score := 30, pos := 15, processed := [0], finished := true } 0 0).1,
     []) :=
  gate_resolved_at_most_once cfgOne gatesOne
    { score := 30, pos := 15, processed := [0], finished := true } 0 0 0 0
    (List.mem_singleton.mpr rfl)

/-- C4: in any reachable state of a generated-gate run with positive spacing
in which the gate with the last ordinal has resolved, the finished flag is
true, and any further tick with non-negative delta only moves the position:
the score, the processed set and the flag are unchanged and no gate resolves,
no event is emitted. -/
theorem finished_engine_frozen (cfg : GameConfig)
    (draw : ℕ → GateOption × GateOption) (st : EngineState) (d : ℚ)
    (lane : ℕ) (hs : 0 < cfg.gateSpacing) (hn : 1 ≤ cfg.totalGates)
    (hr : Reachable cfg (generateGates cfg draw) st)
    (hdone : cfg.totalGates - 1 ∈ st.processed) (hd : 0 ≤ d) :
    st.finished = true ∧
    advance cfg (generateGates cfg draw) st d lane =
      ({ st with pos := st.pos + d }, []) := by
  constructor
  · exact reachable_finished cfg (generateGates cfg draw) st hr hn hdone
  · apply advance_frozen
    · intro g hg
      by_cases hp : g.id ∈ st.processed
      · exact Or.inl hp
      · exact Or.inr (reachable_far cfg draw hs hn st hr hdone g hg hp)
    · exact hd

/-- Witness for C4 at a concrete input: after the single-gate scenario tick
resolves gate 0, the reachable state has the flag set and a further tick of
delta one only shifts the position. -/
theorem finished_engine_frozen_witness :
    (advance cfgOne (generateGates cfgOne drawOne) initialState 15 0).1.finished
      = true ∧
    advance cfgOne (generateGates cfgOne drawOne)
      (advance cfgOne (generateGates cfgOne drawOne) initialState 15 0).1 1 0 =
    ({ (advance cfgOne (generateGates cfgOne drawOne) initialState 15 0).1 with
        pos :=
          (advance cfgOne (generateGates cfgOne drawOne)
            initialState 15 0).1.pos + 1 }, []) :=
  finished_engine_frozen cfgOne drawOne
    (advance cfgOne (generateGates cfgOne drawOne) initialState 15 0).1 1 0
    (by norm_num [cfgOne]) (by norm_num [cfgOne])
    (Reachable.step initialState 15 0 (by norm_num) Reachable.init)
    (by norm_num [advance, handlePositionUpdate, checkCollision, resolveStep,
      generateGates, cfgOne, drawOne, List.range_succ, initialState,
      chosenOption, calculateNewValue, mulThree, addFifty])
    (by norm_num)

/-- C5: a single tick of delta 30 from the start of the single-gate run jumps
from position 0, before the window of the gate at 15 with threshold 2, to
position 30, past that window, without resolving it: the tick emits nothing
and changes nothing but the position, and under every later sequence of
non-negative ticks the gate stays unresolved, no event is ever emitted and
the score stays 10. -/
theorem gate_skipped_forever :
    advance cfgOne gatesOne initialState 30 0 =
      ({ initialState with pos := 30 }, []) ∧
    ∀ ticks : List (ℚ × ℕ), (∀ p ∈ ticks, 0 ≤ p.1) →
      (runTicks cfgOne gatesOne
        ({ initialState with pos := 30 }) ticks).2 = [] ∧
      (runTicks cfgOne gatesOne
        ({ initialState with pos := 30 }) ticks).1.processed = [] ∧
      (runTicks cfgOne gatesOne
        ({ initialState with pos := 30 }) ticks).1.score = 10 := by
  have hfar : ∀ g ∈ gatesOne,
      g.id ∈ ({ initialState with pos := 30 } : EngineState).processed ∨
      g.zPosition + cfgOne.collisionThreshold ≤
        ({ initialState with pos := 30 } : EngineState).pos := by
    intro g hg
    right
    have : g = { id := 0, zPosition := 15, leftOption := mulThree,
                 rightOption := addFifty } := by
      simpa [gatesOne, generateGates, cfgOne, drawOne, List.range_succ]
        using hg
    subst this
    norm_num [cfgOne, initialState]
  constructor
  · unfold advance handlePositionUpdate checkCollision
    rw [foldl_blocked cfgOne initialState.score 0 (initialState.pos + 30)
      gatesOne ({ initialState with pos := initialState.pos + 30 }, [])]
    · have : initialState.pos + 30 = (30 : ℚ) := by norm_num [initialState]
      rw [this]
    · intro g hg
      right
      have hgval : g = { id := 0, zPosition := 15, leftOption := mulThree,
                         rightOption := addFifty } := by
        simpa [gatesOne, generateGates, cfgOne, drawOne, List.range_succ]
          using hg
      subst hgval
      norm_num [cfgOne, initialState]
  · intro ticks hticks
    obtain ⟨h1, h2, h3, h4⟩ :=
      runTicks_frozen cfgOne gatesOne ticks _ hfar hticks
    exact ⟨h1, h3, h2⟩

/-- Witness for C5 at a concrete input: after the jump, a later tick of delta
five still emits nothing, resolves nothing and keeps the score at 10. -/
theorem gate_skipped_forever_witness :
    (runTicks cfgOne gatesOne ({ initialState with pos := 30 })
      [((5 : ℚ), 0)]).2 = [] ∧
    (runTicks cfgOne gatesOne ({ initialState with pos := 30 })
      [((5 : ℚ), 0)]).1.processed = [] ∧
    (runTicks cfgOne gatesOne ({ initialState with pos := 30 })
      [((5 : ℚ), 0)]).1.score = 10 :=
  gate_skipped_forever.2 [((5 : ℚ), 0)] (by norm_num)

/-- C6: Scenario A of the specification: with one gate at 15, threshold 2,
initial score 10, left option Multiply 3 and right option Add 50, a tick of
delta 15 in lane 0 resolves gate 0 through the left option, the score becomes
30, one event with gate id 0 and delta 20 is emitted, and the finished flag
is set. -/
theorem single_gate_scenario_multiply :
    advance cfgOne gatesOne initialState 15 0 =
      ({ score := 30, pos := 15, processed := [0], finished := true },
       [{ gateId := 0, delta := 20, color := "#00ff88", lane := 0 }]) := by
  norm_num [advance, handlePositionUpdate, checkCollision, resolveStep,
    gatesOne, generateGates, cfgOne, drawOne, List.range_succ, initialState,
    chosenOption, calculateNewValue, mulThree, addFifty]

/-- C7: every generated gate sequence has exactly totalGates gates, the gate
stored at index i carries id i, and its position is (i plus one) times the
spacing, so the ids are the contiguous ordinals in order. -/
theorem generateGates_positions (cfg : GameConfig)
    (draw : ℕ → GateOption × GateOption) :
    (generateGates cfg draw).length = cfg.totalGates ∧
    ∀ i, i < cfg.totalGates →
      ∃ g, (generateGates cfg draw).get? i = some g ∧ g.id = i ∧
        g.zPosition = ((i : ℚ) + 1) * cfg.gateSpacing := by
  constructor
  · simp [generateGates]
  · intro i hi
    have hget : (generateGates cfg draw).get? i = some
        { id := i, zPosition := ((i : ℚ) + 1) * cfg.gateSpacing,
          leftOption := (draw i).1, rightOption := (draw i).2 } := by
      rw [generateGates, List.get?_map, List.get?_range hi]
      rfl
    exact ⟨_, hget, rfl, rfl⟩

/-- Witness for C7 at a concrete input: index 0 of the single-gate
configuration. -/
theorem generateGates_positions_witness :
    ∃ g, (generateGates cfgOne drawOne).get? 0 = some g ∧ g.id = 0 ∧
      g.zPosition = (((0 : ℕ) : ℚ) + 1) * cfgOne.gateSpacing :=
  (generateGates_positions cfgOne drawOne).2 0 (by norm_num [cfgOne])

/-- C8: for random-source values in the unit interval, the drawn option is
defined, its operand lies in the inclusive configured range of its kind
(Multiply in 2 to 4, Add in 10 to 100, Subtract in 5 to 50), and its color
class is a pure function of the kind: Subtract gets the negative class, the
other two kinds the positive class. -/
theorem getRandomOption_range_color (r1 r2 : ℚ) (h10 : 0 ≤ r1) (h11 : r1 < 1)
    (h20 : 0 ≤ r2) (h21 : r2 < 1) :
    ∃ opt, getRandomOption r1 r2 = some opt ∧
      (opt.type = OperationType.multiply → 2 ≤ opt.value ∧ opt.value ≤ 4) ∧
      (opt.type = OperationType.add → 10 ≤ opt.value ∧ opt.value ≤ 100) ∧
      (opt.type = OperationType.subtract → 5 ≤ opt.value ∧ opt.value ≤ 50) ∧
      opt.color = (if opt.type = OperationType.subtract
        then "#ff3366" else "#00ff88") := by
  have h3 : ((3 : ℤ) : ℚ) = 3 := by norm_num
  have hidx0 := floor_unit_mul r1 3 h10 h11 (by norm_num)
  rw [h3] at hidx0
  have hval : ∀ lo hi : ℤ, 0 < hi - lo + 1 →
      lo ≤ ⌊r2 * ((hi - lo + 1 : ℤ) : ℚ)⌋ + lo ∧
      ⌊r2 * ((hi - lo + 1 : ℤ) : ℚ)⌋ + lo ≤ hi := by
    intro lo hi hpos
    have := floor_unit_mul r2 (hi - lo + 1) h20 h21 hpos
    omega
  have hcases : ⌊r1 * 3⌋ = 0 ∨ ⌊r1 * 3⌋ = 1 ∨ ⌊r1 * 3⌋ = 2 := by omega
  rcases hcases with h | h | h
  · have heq : getRandomOption r1 r2 = some
        { type := OperationType.multiply,
          value := ⌊r2 * (((4 : ℤ) - 2 + 1 : ℤ) : ℚ)⌋ + 2,
          color := "#00ff88",
          label := opSymbol OperationType.multiply ++
            toString (⌊r2 * (((4 : ℤ) - 2 + 1 : ℤ) : ℚ)⌋ + 2) } := by
      simp [getRandomOption, h, operations]
    refine ⟨_, heq, ?_, ?_, ?_, ?_⟩
    · intro _
      exact hval 2 4 (by norm_num)
    · intro hab
      exact OperationType.noConfusion hab
    · intro hab
      exact OperationType.noConfusion hab
    · simp
  · have heq : getRandomOption r1 r2 = some
        { type := OperationType.add,
          value := ⌊r2 * (((100 : ℤ) - 10 + 1 : ℤ) : ℚ)⌋ + 10,
          color := "#00ff88",
          label := opSymbol OperationType.add ++
            toString (⌊r2 * (((100 : ℤ) - 10 + 1 : ℤ) : ℚ)⌋ + 10) } := by
      simp [getRandomOption, h, operations]
    refine ⟨_, heq, ?_, ?_, ?_, ?_⟩
    · intro hab
      exact OperationType.noConfusion hab
    · intro _
      exact hval 10 100 (by norm_num)
    · intro hab
      exact OperationType.noConfusion hab
    · simp
  · have heq : getRandomOption r1 r2 = some
        { type := OperationType.subtract,
          value := ⌊r2 * (((50 : ℤ) - 5 + 1 : ℤ) : ℚ)⌋ + 5,
          color := "#ff3366",
          label := opSymbol OperationType.subtract ++
            toString (⌊r2 * (((50 : ℤ) - 5 + 1 : ℤ) : ℚ)⌋ + 5) } := by
      simp [getRandomOption, h, operations]
    refine ⟨_, heq, ?_, ?_, ?_, ?_⟩
    · intro hab
      exact OperationType.noConfusion hab
    · intro hab
      exact OperationType.noConfusion hab
    · intro _
      exact hval 5 50 (by norm_num)
    · simp

/-- Witness for C8 at a concrete input: both random values zero give the
Multiply kind with operand 2. -/
theorem getRandomOption_range_color_witness :
    ∃ opt, getRandomOption 0 0 = some opt ∧
      (opt.type = OperationType.multiply → 2 ≤ opt.value ∧ opt.value ≤ 4) ∧
      (opt.type = OperationType.add → 10 ≤ opt.value ∧ opt.value ≤ 100) ∧
      (opt.type = OperationType.subtract → 5 ≤ opt.value ∧ opt.value ≤ 50) ∧
      opt.color = (if opt.type = OperationType.subtract
        then "#ff3366" else "#00ff88") :=
  getRandomOption_range_color 0 0 le_rfl (by norm_num) le_rfl (by norm_num)

/-- C9: with a non-negative starting score and all gate operands inside their
configured positive ranges, the score stays non-negative through every
sequence of ticks, whatever lanes are selected. -/
theorem score_nonneg_invariant (cfg : GameConfig) (gates : List GateData)
    (hg : ∀ g ∈ gates, optionInRange g.leftOption ∧
      optionInRange g.rightOption) :
    ∀ (st : EngineState) (ticks : List (ℚ × ℕ)), 0 ≤ st.score →
    0 ≤ (runTicks cfg gates st ticks).1.score := by
  intro st ticks
  induction ticks generalizing st with
  | nil => intro h; exact h
  | cons t ts ih =>
    intro h
    show 0 ≤ (runTicks cfg gates (advance cfg gates st t.1 t.2).1 ts).1.score
    apply ih
    show 0 ≤ (advance cfg gates st t.1 t.2).1.score
    unfold advance handlePositionUpdate checkCollision
    exact foldl_score_nonneg cfg st.score t.2 (st.pos + t.1) h gates _ hg h

/-- Witness for C9 at a concrete input: the single-gate run after the
resolving tick has a non-negative score. -/
theorem score_nonneg_invariant_witness :
    0 ≤ (runTicks cfgOne gatesOne initialState [((15 : ℚ), 0)]).1.score := by
  apply score_nonneg_invariant cfgOne gatesOne
  · intro g hgm
    have hgval : g = { id := 0, zPosition := 15, leftOption := mulThree,
                       rightOption := addFifty } := by
      simpa [gatesOne, generateGates, cfgOne, drawOne, List.range_succ]
        using hgm
    subst hgval
    exact ⟨⟨by norm_num [mulThree], by norm_num [mulThree]⟩,
      ⟨by norm_num [addFifty], by norm_num [addFifty]⟩⟩
  · norm_num [initialState]

/-- C10: every tick computes each resolution from the tick-start score: every
emitted event belongs to some gate and carries the difference between the
chosen option applied to the tick-start score and that score; the score after
the tick is the tick-start score shifted by the delta of the last event only,
so earlier same-tick resolutions do not compound; every unresolved gate whose
window contains the new position does emit an event; and in the concrete
wide-threshold run (spacing 4, threshold 3, gates Add 100 and Multiply 2 on
the left), one tick of delta 6 resolves both gates, emits both events, and
ends with score 20, the tick-start score 10 times 2, not 220. -/
theorem same_tick_resolutions_from_tick_start :
    (∀ (cfg : GameConfig) (gates : List GateData) (st : EngineState)
      (d : ℚ) (lane : ℕ),
      (∀ e ∈ (advance cfg gates st d lane).2, ∃ g ∈ gates,
        e.gateId = g.id ∧
        e.delta = calculateNewValue st.score (chosenOption lane g) - st.score ∧
        e.color = (chosenOption lane g).color ∧ e.lane = lane) ∧
      (advance cfg gates st d lane).1.score =
        st.score + lastDelta (advance cfg gates st d lane).2 ∧
      (∀ g ∈ gates, |st.pos + d - g.zPosition| < cfg.collisionThreshold →
        g.id ∉ st.processed →
        ∃ e ∈ (advance cfg gates st d lane).2, e.gateId = g.id)) ∧
    advance cfgWide gatesWide initialState 6 0 =
      ({ score := 20, pos := 6, processed := [0, 1], finished := true },
       [{ gateId := 0, delta := 100, color := "#00ff88", lane := 0 },
        { gateId := 1, delta := 10, color := "#00ff88", lane := 0 }]) := by
  constructor
  · intro cfg gates st d lane
    refine ⟨?_, ?_, ?_⟩
    · intro e he
      unfold advance handlePositionUpdate checkCollision at he
      rcases foldl_events_shape cfg st.score lane (st.pos + d) gates _ e he
        with h1 | h2
      · exact absurd h1 (List.not_mem_nil e)
      · exact h2
    · unfold advance handlePositionUpdate checkCollision
      apply foldl_score_last
      show ({ st with pos := st.pos + d } : EngineState).score =
        st.score + lastDelta []
      simp [lastDelta]
    · intro g hg hw hp
      unfold advance handlePositionUpdate checkCollision
      have hdone := foldl_resolves cfg st.score lane (st.pos + d) gates
        ({ st with pos := st.pos + d }, []) g hg hw
      exact foldl_event_of_new cfg st.score lane (st.pos + d) gates _ g.id
        hp hdone
  · norm_num [advance, handlePositionUpdate, checkCollision, resolveStep,
      gatesWide, generateGates, cfgWide, drawWide, List.range_succ,
      initialState, chosenOption, calculateNewValue, addHundred, mulTwo,
      addFifty]

/-- Witness for C10 at a concrete input: the score after the wide-threshold
double-resolution tick equals the tick-start score shifted by the last
emitted delta. -/
theorem same_tick_resolutions_witness :
    (advance cfgWide gatesWide initialState 6 0).1.score =
      initialState.score +
        lastDelta (advance cfgWide gatesWide initialState 6 0).2 :=
  (same_tick_resolutions_from_tick_start.1 cfgWide gatesWide initialState
    6 0).2.1

end NumberRunner
